import Mathlib

/-!
Verification of the AssetTracker core against its natural-language
specification.

The development shallowly embeds the two core components:

* the serial-number allocator `generateSerialNumber` from
  `src/Backend/server.js` (lines 97-145), and
* the assignment ledger: the tables and constraints of
  `src/AssetManagament.sql` (`AssetAssignments` with
  `CK_ReturnedAfterAssigned` and the filtered unique index
  `UQ_OneAssetOneEmployee`), the stored procedures `sp_AssignAsset` and
  `sp_ReturnAsset`, and the Express endpoints of `src/Backend/server.js`
  (`POST /api/assignments`, `POST /api/assignments/:id/return`,
  `DELETE /api/assets/:assetId`).

Timestamps are modelled as natural numbers, table rows as lists, and the
store-level constraints (foreign keys, the CHECK constraint, the filtered
unique index) as guards that atomically reject a violating write, which is
exactly how the SQL engine applies them.
-/

/-! ## Serial allocator (`generateSerialNumber`, server.js 97-145) -/

/-- The regex `[^a-zA-Z]` of `assetType.replace(/[^a-zA-Z]/g, '')` keeps
exactly the ASCII letters. -/
def isAsciiLetter (c : Char) : Bool :=
  (65 ≤ c.toNat && c.toNat ≤ 90) || (97 ≤ c.toNat && c.toNat ≤ 122)

/-- JavaScript `toUpperCase` restricted to the ASCII letters that survive
the `replace`: a lowercase ASCII letter moves down by 32, anything else is
unchanged. -/
def upperAscii (c : Char) : Char :=
  if 97 ≤ c.toNat && c.toNat ≤ 122 then Char.ofNat (c.toNat - 32) else c

/-- `.padEnd(2, 'X')` on a string of length at most 2. -/
def padEndX (l : List Char) : List Char :=
  l ++ List.replicate (2 - l.length) 'X'

/-- The two-letter code computed at server.js 99-103:
`assetType.replace(/[^a-zA-Z]/g, '').substring(0, 2).toUpperCase().padEnd(2, 'X')`. -/
def typeCode (assetType : String) : String :=
  String.mk (padEndX (((assetType.data.filter isAsciiLetter).take 2).map upperAscii))

/-- `` `${prefix}-${year}-` `` (server.js 106). -/
def basePattern (assetType : String) (year : Nat) : String :=
  typeCode assetType ++ "-" ++ Nat.repr year ++ "-"

/-- `RIGHT(s, 3)`: the last three characters of the string. -/
def rightThree (s : String) : List Char :=
  s.data.drop (s.data.length - 3)

/-- Decimal value of a digit list.  This models `CAST(... AS INT)` on the
three-character suffix; the model is used only on serials whose last three
characters are decimal digits, which is true of every serial the generator
produces (`padStart(3, '0')` guarantees at least three trailing digits). -/
def digitsVal (l : List Char) : Nat :=
  l.foldl (fun a c => a * 10 + (c.toNat - 48)) 0

/-- The sort key `CAST(RIGHT(SerialNumber, 3) AS INT)` of the scan query
(server.js 112-115). -/
def rightThreeVal (s : String) : Nat :=
  digitsVal (rightThree s)

/-- `SerialNumber LIKE @pattern` with `@pattern = basePattern + '%'`:
a prefix match. -/
def likeMatch (pat s : String) : Bool :=
  pat.data.isPrefixOf s.data

/-- `SELECT TOP 1 SerialNumber FROM Assets WHERE SerialNumber LIKE @pattern
ORDER BY CAST(RIGHT(SerialNumber, 3) AS INT) DESC` (server.js 109-116):
among the serials matching the pattern, one with the greatest
last-three-characters value. -/
def topByRightThree (serials : List String) (pat : String) : Option String :=
  (serials.filter (fun s => likeMatch pat s)).foldl
    (fun acc s =>
      match acc with
      | none => some s
      | some b => if rightThreeVal b < rightThreeVal s then some s else acc)
    none

/-- `lastSerial.split('-')` on the character list. -/
def splitDash : List Char → List (List Char)
  | [] => [[]]
  | c :: rest =>
    if c = '-' then [] :: splitDash rest
    else
      match splitDash rest with
      | [] => [[c]]
      | g :: gs => (c :: g) :: gs

/-- JavaScript `parseInt(s, 10)` restricted to the strings that occur here:
the value of the leading run of decimal digits, `none` (NaN) when there is
no leading digit. -/
def parseIntJs (l : List Char) : Option Nat :=
  let d := l.takeWhile (fun c => 48 ≤ c.toNat && c.toNat ≤ 57)
  if d.isEmpty then none else some (digitsVal d)

/-- server.js 118-129: `nextNumber` starts at 1; if the scan returned a row,
split it on `-`, and when it has exactly three parts whose third parses as a
number, use that number plus one. -/
def nextNumber (serials : List String) (pat : String) : Nat :=
  match topByRightThree serials pat with
  | none => 1
  | some lastSerial =>
    let parts := splitDash lastSerial.data
    if parts.length = 3 then
      match parseIntJs (parts.getD 2 []) with
      | some lastNum => lastNum + 1
      | none => 1
    else 1

/-- `nextNumber.toString().padStart(3, '0')` (server.js 132). -/
def padStartThree (n : Nat) : String :=
  String.mk (List.replicate (3 - (Nat.repr n).length) '0' ++ (Nat.repr n).data)

/-- The candidate `` `${basePattern}${nextNumber.toString().padStart(3, '0')}` ``
computed by one pass of `generateSerialNumber` over the persisted serials
(server.js 106-132). -/
def candidateSerial (serials : List String) (assetType : String) (year : Nat) : String :=
  basePattern assetType year ++
    padStartThree (nextNumber serials (basePattern assetType year))

/-- `generateSerialNumber` (server.js 97-145) with an explicit recursion
budget.  One attempt computes the candidate and runs the `COUNT(*)`
uniqueness double-check (server.js 134-141); on a collision the function
calls itself again with the same argument against the same store.  The
source has no budget at all: exhausting any finite `fuel` here means the
source recursion has exceeded that depth. -/
def generateSerialNumber (serials : List String) (assetType : String) (year : Nat) :
    Nat → Option String
  | 0 => none
  | fuel + 1 =>
    let cand := candidateSerial serials assetType year
    if serials.contains cand then generateSerialNumber serials assetType year fuel
    else some cand

/-! ## Assignment ledger: data model (`AssetManagament.sql` 40-57) -/

/-- A row of `AssetAssignments` (AssetManagament.sql 40-52).  `DATETIME2`
values are modelled as naturals; `ReturnedAt` is nullable. -/
structure Assignment where
  assignmentId : Nat
  assetId : Nat
  employeeId : Nat
  assignedAt : Nat
  returnedAt : Option Nat
deriving DecidableEq, Repr

/-- The persistent store: the `Assets` and `Employees` tables reduced to
their primary keys (that is all the ledger constraints consult), the
`AssetAssignments` rows, and the `IDENTITY` counter that produces
`AssignmentId`. -/
structure LedgerState where
  assets : List Nat
  employees : List Nat
  rows : List Assignment
  nextId : Nat
deriving DecidableEq, Repr

/-- `ReturnedAt IS NULL`. -/
def activeRow (r : Assignment) : Bool :=
  r.returnedAt == none

/-- `AssetId = a AND ReturnedAt IS NULL`. -/
def isActiveFor (a : Nat) (r : Assignment) : Bool :=
  r.assetId == a && activeRow r

/-- `EXISTS (SELECT 1 FROM AssetAssignments WHERE AssetId = @AssetId AND
ReturnedAt IS NULL)` (AssetManagament.sql 71, server.js 288-294). -/
def hasActive (db : LedgerState) (a : Nat) : Bool :=
  db.rows.any (isActiveFor a)

/-- Number of active assignment rows of one asset. -/
def countActive (rows : List Assignment) (a : Nat) : Nat :=
  (rows.filter (isActiveFor a)).length

/-- Asset ids of the rows covered by the filtered unique index
`UQ_OneAssetOneEmployee ON AssetAssignments(AssetId) WHERE ReturnedAt IS
NULL` (AssetManagament.sql 55-57). -/
def activeIds (rows : List Assignment) : List Nat :=
  (rows.filter activeRow).map (·.assetId)

/-- Executable no-duplicates check on a list of keys. -/
def keysNodup : List Nat → Bool
  | [] => true
  | x :: xs => !(xs.contains x) && keysNodup xs

/-- The filtered unique index holds of a table iff no asset id occurs twice
among its active rows. -/
def uqOk (rows : List Assignment) : Bool :=
  keysNodup (activeIds rows)

/-- One row satisfies `CK_ReturnedAfterAssigned CHECK (ReturnedAt IS NULL OR
ReturnedAt >= AssignedAt)` (AssetManagament.sql 51). -/
def ckRow (r : Assignment) : Bool :=
  match r.returnedAt with
  | none => true
  | some t => decide (r.assignedAt ≤ t)

/-- The CHECK constraint holds of the whole table. -/
def ckOk (rows : List Assignment) : Bool :=
  rows.all ckRow

/-! ## Stored procedures and endpoints -/

/-- Outcome of `sp_AssignAsset` as observed by the driver.  `printedAlready`
is the `PRINT 'Asset already assigned'; RETURN` path (AssetManagament.sql
72-75): a severity-0 informational message, not an error, so the driver
call resolves normally.  `fkError` is a raised foreign-key violation from
the `INSERT` (AssetManagament.sql 47-48). -/
inductive SpAssign where
  | printedAlready
  | inserted
  | fkError
deriving DecidableEq, Repr

/-- `sp_AssignAsset` (AssetManagament.sql 64-81): check for an active row,
otherwise insert `(AssetId, EmployeeId)` with `AssignedAt = GETDATE()` and
`ReturnedAt` null; `now` stands for `GETDATE()`. -/
def sp_AssignAsset (db : LedgerState) (aId eId now : Nat) : SpAssign × LedgerState :=
  if hasActive db aId then (.printedAlready, db)
  else if db.assets.contains aId && db.employees.contains eId then
    (.inserted,
      { db with
          rows := db.rows ++ [⟨db.nextId, aId, eId, now, none⟩],
          nextId := db.nextId + 1 })
  else (.fkError, db)

/-- Outcome of `sp_ReturnAsset`.  `noRow` is the `@@ROWCOUNT = 0` path,
signalled only by `PRINT 'Assignment not found or already returned'`
(AssetManagament.sql 95-96), again not an error.  `ckError` is a raised
`CK_ReturnedAfterAssigned` violation rejecting the `UPDATE`. -/
inductive SpRet where
  | updated
  | noRow
  | ckError
deriving DecidableEq, Repr

/-- The `UPDATE AssetAssignments SET ReturnedAt = GETDATE() WHERE
AssignmentId = @AssignmentId AND ReturnedAt IS NULL` write
(AssetManagament.sql 91-93). -/
def returnRows (rows : List Assignment) (id now : Nat) : List Assignment :=
  rows.map (fun r =>
    if r.assignmentId == id && activeRow r then { r with returnedAt := some now } else r)

/-- `sp_ReturnAsset` (AssetManagament.sql 85-100).  The store applies
`CK_ReturnedAfterAssigned` to every updated row and rejects the whole
`UPDATE` on a violation. -/
def sp_ReturnAsset (db : LedgerState) (id now : Nat) : SpRet × LedgerState :=
  if db.rows.any (fun r => r.assignmentId == id && activeRow r && decide (now < r.assignedAt)) then
    (.ckError, db)
  else if db.rows.any (fun r => r.assignmentId == id && activeRow r) then
    (.updated, { db with rows := returnRows db.rows id now })
  else (.noRow, db)

/-- An HTTP reply of the assignment endpoints: status code, the `success`
field of the JSON body, and the assignment row sent as `data`. -/
structure ApiResp where
  status : Nat
  success : Bool
  data : Option Assignment
deriving DecidableEq, Repr

/-- The re-read at server.js 346-355: `SELECT TOP 1 ... WHERE AssetId =
@assetId AND ReturnedAt IS NULL ORDER BY AssignedAt DESC`. -/
def selectActiveTop (db : LedgerState) (aId : Nat) : Option Assignment :=
  (db.rows.filter (isActiveFor aId)).foldl
    (fun acc r =>
      match acc with
      | none => some r
      | some b => if b.assignedAt < r.assignedAt then some r else acc)
    none

/-- `POST /api/assignments` (server.js 335-370).  The stored procedure only
`PRINT`s on the already-assigned path, so the handler falls through to the
re-read and replies `201 { success: true }` in that case too; only a raised
error (here: a foreign-key violation) reaches the `catch`, whose message
does not contain `'already assigned'`, giving the generic
`400 { success: false }`. -/
def assignEndpoint (db : LedgerState) (aId eId now : Nat) : ApiResp × LedgerState :=
  match sp_AssignAsset db aId eId now with
  | (.fkError, db2) => (⟨400, false, none⟩, db2)
  | (_, db2) => (⟨201, true, selectActiveTop db2 aId⟩, db2)

/-- `POST /api/assignments/:assignmentId/return` (server.js 373-398).  The
`@@ROWCOUNT = 0` path only `PRINT`s, so the handler re-reads the row
(server.js 383-387) and replies `200 { success: true }` regardless; only a
raised error (a `CK_ReturnedAfterAssigned` violation) reaches the `catch`,
which replies 400 with the raw message. -/
def returnEndpoint (db : LedgerState) (id now : Nat) : ApiResp × LedgerState :=
  match sp_ReturnAsset db id now with
  | (.ckError, db2) => (⟨400, false, none⟩, db2)
  | (_, db2) => (⟨200, true, db2.rows.find? (fun r => r.assignmentId == id)⟩, db2)

/-- Outcome of `DELETE /api/assets/:assetId`. -/
inductive DeleteOutcome where
  | assetInUse
  | deleted
  | notFound
deriving DecidableEq, Repr

/-- `DELETE /api/assets/:assetId` (server.js 283-328): reject with the
in-use message when an active assignment exists; otherwise delete the
assignment history, then the asset row, answering 404 when no asset row was
deleted. -/
def deleteEndpoint (db : LedgerState) (aId : Nat) : DeleteOutcome × LedgerState :=
  if hasActive db aId then (.assetInUse, db)
  else if db.assets.contains aId then
    (.deleted,
      { db with
          rows := db.rows.filter (fun r => !(r.assetId == aId)),
          assets := db.assets.filter (fun x => !(x == aId)) })
  else (.notFound, { db with rows := db.rows.filter (fun r => !(r.assetId == aId)) })

/-! ## Raw store writes

A direct `INSERT`/`UPDATE` against `AssetAssignments` bypasses the stored
procedures but not the declared constraints: the engine checks the foreign
keys, `CK_ReturnedAfterAssigned` and the filtered unique index atomically
with the write and rejects it on a violation, leaving the table unchanged.
These two writes also serve as the interleaving steps of racing procedure
calls, whose check and insert are not covered by one transaction. -/

/-- A bare `INSERT INTO AssetAssignments (AssetId, EmployeeId, AssignedAt,
ReturnedAt) VALUES (...)`, constraint-checked by the store. -/
def rawInsertRow (db : LedgerState) (aId eId assignedAt : Nat) (returned : Option Nat) :
    LedgerState :=
  if !(db.assets.contains aId && db.employees.contains eId) then db
  else if returned == none && hasActive db aId then db
  else if (match returned with | some t => decide (t < assignedAt) | none => false) then db
  else
    { db with
        rows := db.rows ++ [⟨db.nextId, aId, eId, assignedAt, returned⟩],
        nextId := db.nextId + 1 }

/-- A bare `UPDATE AssetAssignments SET ReturnedAt = @val WHERE AssignmentId
= @id`.  The engine re-checks `CK_ReturnedAfterAssigned` on every updated
row and, when the update moves a row back into the filtered unique index
(`@val` null), re-checks that index on the resulting table; a violation
rolls the whole statement back. -/
def rawSetReturned (db : LedgerState) (id : Nat) (val : Option Nat) : LedgerState :=
  if (match val with
      | some t => db.rows.any (fun r => r.assignmentId == id && decide (t < r.assignedAt))
      | none => false) then db
  else if val == none &&
      !(uqOk (db.rows.map (fun r =>
          if r.assignmentId == id then { r with returnedAt := val } else r))) then db
  else
    { db with
        rows := db.rows.map (fun r =>
          if r.assignmentId == id then { r with returnedAt := val } else r) }

/-- The operations that can touch the `AssetAssignments` table: the three
endpoints and the two raw constraint-checked writes. -/
inductive Op where
  | assign (aId eId now : Nat)
  | ret (id now : Nat)
  | del (aId : Nat)
  | rawInsert (aId eId assignedAt : Nat) (returned : Option Nat)
  | rawUpdate (id : Nat) (val : Option Nat)
deriving DecidableEq, Repr

/-- State transition of one operation. -/
def applyOp (db : LedgerState) : Op → LedgerState
  | .assign aId eId now => (assignEndpoint db aId eId now).2
  | .ret id now => (returnEndpoint db id now).2
  | .del aId => (deleteEndpoint db aId).2
  | .rawInsert aId eId assignedAt returned => rawInsertRow db aId eId assignedAt returned
  | .rawUpdate id val => rawSetReturned db id val

/-- State after a whole sequence of operations. -/
def applyOps (db : LedgerState) (ops : List Op) : LedgerState :=
  ops.foldl applyOp db


/-! ## Interleaved execution of two racing `sp_AssignAsset` calls

`sp_AssignAsset` runs no transaction around its existence check and its
`INSERT` (AssetManagament.sql 68-81), so two concurrent calls interleave at
statement granularity.  A process is the two-statement program
check-then-insert; the `INSERT` statement itself is atomic with the
constraint checks of the store, in particular with the filtered unique
index. -/

/-- What one racing `sp_AssignAsset` call has observed so far. -/
inductive RaceOutcome where
  | pending
  | already
  | raisedError
  | success
deriving DecidableEq, Repr

/-- Program counter and outcome of one racing call: `pc = 0` before the
`IF EXISTS` check, `pc = 1` before the `INSERT`, `pc = 2` done. -/
structure ProcState where
  pc : Nat
  out : RaceOutcome
deriving DecidableEq, Repr

/-- One statement of a racing `sp_AssignAsset aId eId` call.  The check
takes the `PRINT`-and-return path when an active row exists; the `INSERT`
is guarded by the foreign keys and by `UQ_OneAssetOneEmployee`, which
raises an error if an active row for the asset appeared meanwhile. -/
def raceStep (a e now : Nat) (db : LedgerState) (p : ProcState) : LedgerState × ProcState :=
  match p.pc with
  | 0 => if hasActive db a then (db, ⟨2, .already⟩) else (db, ⟨1, .pending⟩)
  | 1 =>
    if !(db.assets.contains a && db.employees.contains e) then (db, ⟨2, .raisedError⟩)
    else if hasActive db a then (db, ⟨2, .raisedError⟩)
    else
      ({ db with
           rows := db.rows ++ [⟨db.nextId, a, e, now, none⟩],
           nextId := db.nextId + 1 },
       ⟨2, .success⟩)
  | _ => (db, p)

/-- Run two racing `sp_AssignAsset` calls on the same asset under a
schedule: `true` steps the first process, `false` the second. -/
def runRace (db : LedgerState) (a e1 e2 n1 n2 : Nat) (sched : List Bool) :
    LedgerState × ProcState × ProcState :=
  sched.foldl
    (fun st b =>
      if b then
        ((raceStep a e1 n1 st.1 st.2.1).1, (raceStep a e1 n1 st.1 st.2.1).2, st.2.2)
      else
        ((raceStep a e2 n2 st.1 st.2.2).1, st.2.1, (raceStep a e2 n2 st.1 st.2.2).2))
    (db, ⟨0, .pending⟩, ⟨0, .pending⟩)

/-- All interleavings of the two two-statement processes. -/
def interleavings : List (List Bool) :=
  [[true, true, false, false], [true, false, true, false], [true, false, false, true],
   [false, true, true, false], [false, true, false, true], [false, false, true, true]]

/-- Exactly one of the two racing calls succeeded. -/
def oneSuccess (st : LedgerState × ProcState × ProcState) : Prop :=
  (st.2.1.out = RaceOutcome.success ∧ st.2.2.out ≠ RaceOutcome.success) ∨
  (st.2.1.out ≠ RaceOutcome.success ∧ st.2.2.out = RaceOutcome.success)

/-! ## The catch-handler translation of store errors (server.js 362-369, 394-397) -/

/-- Tails of a character list, longest first. -/
def tailsOf : List Char → List (List Char)
  | [] => [[]]
  | c :: rest => (c :: rest) :: tailsOf rest

/-- JavaScript `s.includes(sub)`: substring containment. -/
def jsIncludes (s sub : String) : Bool :=
  (tailsOf s.data).any (fun t => sub.data.isPrefixOf t)

/-- The `catch` of `POST /api/assignments` (server.js 362-369): status 409
with a fixed message when `err.message` contains the substring
`already assigned`, otherwise status 400 with the raw `err.message`. -/
def assignCatch (msg : String) : Nat × String :=
  if jsIncludes msg "already assigned" then (409, "Asset is already assigned")
  else (400, msg)

/-- The `catch` of `POST /api/assignments/:assignmentId/return`
(server.js 394-397): always status 400 with the raw `err.message`. -/
def returnCatch (msg : String) : Nat × String :=
  (400, msg)

/-- SQL Server message 2601, raised when a racing `INSERT` collides with
the filtered unique index `UQ_OneAssetOneEmployee` (quoting of the object
names elided). -/
def duplicateKeyMessage : String :=
  "Cannot insert duplicate key row in object dbo.AssetAssignments with unique index UQ_OneAssetOneEmployee. The duplicate key value is (1)."

/-! ## Concrete states used by the evaluation theorems and witnesses -/

/-- Asset 1 and employees 1 and 2 exist; assignment 1 holds asset 1 for
employee 1 and is still active. -/
def dbAssigned : LedgerState :=
  ⟨[1], [1, 2], [⟨1, 1, 1, 10, none⟩], 2⟩

/-- Asset 1 and employee 1 exist; assignment 1 was assigned at 10 and
returned at 20. -/
def dbReturned : LedgerState :=
  ⟨[1], [1], [⟨1, 1, 1, 10, some 20⟩], 2⟩

/-- Asset 1 and employees 1 and 2 exist; no assignments yet. -/
def dbEmpty : LedgerState :=
  ⟨[1], [1, 2], [], 1⟩

/-- `dbAssigned` after its active assignment was returned at 20. -/
def dbAssignedReturned : LedgerState :=
  ⟨[1], [1, 2], [⟨1, 1, 1, 10, some 20⟩], 2⟩

/-! ## Helper lemmas about the two table invariants -/

theorem contains_false_iff (l : List Nat) (x : Nat) : l.contains x = false ↔ x ∉ l := by
  constructor
  · intro h hx
    have hc : l.contains x = true := List.elem_iff.2 hx
    rw [h] at hc
    exact Bool.false_ne_true hc
  · intro h
    cases hc : l.contains x
    · rfl
    · exact absurd (List.elem_iff.1 hc) h

theorem keysNodup_iff (l : List Nat) : keysNodup l = true ↔ l.Nodup := by
  induction l with
  | nil => simp [keysNodup]
  | cons x xs ih =>
    simp only [keysNodup, Bool.and_eq_true, Bool.not_eq_true', contains_false_iff, ih,
      List.nodup_cons]

theorem activeIds_append (l1 l2 : List Assignment) :
    activeIds (l1 ++ l2) = activeIds l1 ++ activeIds l2 := by
  simp [activeIds, List.filter_append]

theorem mem_activeIds (rows : List Assignment) (a : Nat) :
    a ∈ activeIds rows ↔ rows.any (isActiveFor a) = true := by
  simp only [activeIds, List.mem_map, List.mem_filter, List.any_eq_true, isActiveFor,
    Bool.and_eq_true, beq_iff_eq]
  constructor
  · rintro ⟨r, ⟨hr, ha⟩, rfl⟩
    exact ⟨r, hr, rfl, ha⟩
  · rintro ⟨r, hr, rfl, ha⟩
    exact ⟨r, ⟨hr, ha⟩, rfl⟩

theorem uq_sublist {l1 l2 : List Assignment} (h : l1.Sublist l2) (hu : uqOk l2 = true) :
    uqOk l1 = true := by
  rw [uqOk, keysNodup_iff] at *
  unfold activeIds
  exact List.Nodup.sublist ((h.filter activeRow).map (·.assetId)) hu

theorem activeIds_map_sublist (f : Assignment → Assignment)
    (hf : ∀ r, f r = r ∨ activeRow (f r) = false) :
    ∀ l : List Assignment, (activeIds (l.map f)).Sublist (activeIds l) := by
  intro l
  induction l with
  | nil => simp [activeIds]
  | cons r rest ih =>
    rcases hf r with h | h
    · simp only [List.map_cons, activeIds, List.filter_cons, h]
      cases hra : activeRow r
      · simpa [activeIds, hra] using ih
      · simpa [activeIds, hra] using ih.cons₂ r.assetId
    · simp only [List.map_cons, activeIds, List.filter_cons, h]
      cases hra : activeRow r
      · simpa [activeIds, hra] using ih
      · simpa [activeIds, hra] using ih.cons r.assetId

theorem uq_map (f : Assignment → Assignment)
    (hf : ∀ r, f r = r ∨ activeRow (f r) = false)
    (rows : List Assignment) (h : uqOk rows = true) : uqOk (rows.map f) = true := by
  rw [uqOk, keysNodup_iff] at *
  exact List.Nodup.sublist (activeIds_map_sublist f hf rows) h

theorem uq_append_active (rows : List Assignment) (r : Assignment)
    (hr : activeRow r = true) (h : uqOk rows = true)
    (hnew : rows.any (isActiveFor r.assetId) = false) :
    uqOk (rows ++ [r]) = true := by
  rw [uqOk, keysNodup_iff] at *
  rw [activeIds_append]
  have h1 : activeIds [r] = [r.assetId] := by simp [activeIds, hr]
  rw [h1]
  refine (List.nodup_append).2 ⟨h, List.nodup_singleton _, ?_⟩
  intro x hx hx2
  rw [List.mem_singleton] at hx2
  subst hx2
  rw [mem_activeIds, hnew] at hx
  exact Bool.false_ne_true hx

theorem uq_append_inactive (rows : List Assignment) (r : Assignment)
    (hr : activeRow r = false) (h : uqOk rows = true) : uqOk (rows ++ [r]) = true := by
  rw [uqOk] at *
  rw [activeIds_append]
  have h1 : activeIds [r] = [] := by simp [activeIds, hr]
  rw [h1, List.append_nil]
  exact h

theorem countActive_le_one (rows : List Assignment) (h : uqOk rows = true) (a : Nat) :
    countActive rows a ≤ 1 := by
  rw [uqOk, keysNodup_iff, List.nodup_iff_count_le_one] at h
  have hc := h a
  rw [countActive]
  have he : (rows.filter (isActiveFor a)).length = List.count a (activeIds rows) := by
    rw [List.count_eq_countP, activeIds, List.countP_map, List.countP_eq_length_filter,
      List.filter_filter]
    rfl
  rw [he]
  exact hc

/-! ## Preservation of the filtered unique index by every operation -/

theorem assignEndpoint_state (db : LedgerState) (aId eId now : Nat) :
    (assignEndpoint db aId eId now).2 = (sp_AssignAsset db aId eId now).2 := by
  unfold assignEndpoint
  rcases h : sp_AssignAsset db aId eId now with ⟨o, db2⟩
  cases o <;> simp

theorem returnEndpoint_state (db : LedgerState) (id now : Nat) :
    (returnEndpoint db id now).2 = (sp_ReturnAsset db id now).2 := by
  unfold returnEndpoint
  rcases h : sp_ReturnAsset db id now with ⟨o, db2⟩
  cases o <;> simp

theorem uq_sp_assign (db : LedgerState) (aId eId now : Nat) (h : uqOk db.rows = true) :
    uqOk (sp_AssignAsset db aId eId now).2.rows = true := by
  unfold sp_AssignAsset
  split
  · exact h
  · split
    · rename_i hact _
      rw [Bool.not_eq_true] at hact
      exact uq_append_active db.rows ⟨db.nextId, aId, eId, now, none⟩ rfl h hact
    · exact h

theorem returnRows_pointwise (id now : Nat) :
    ∀ r : Assignment,
      (if r.assignmentId == id && activeRow r then { r with returnedAt := some now } else r) = r
      ∨ activeRow (if r.assignmentId == id && activeRow r
          then { r with returnedAt := some now } else r) = false := by
  intro r
  by_cases hc : (r.assignmentId == id && activeRow r) = true
  · right
    rw [if_pos hc]
    rfl
  · left
    rw [if_neg hc]

theorem uq_sp_return (db : LedgerState) (id now : Nat) (h : uqOk db.rows = true) :
    uqOk (sp_ReturnAsset db id now).2.rows = true := by
  unfold sp_ReturnAsset
  split
  · exact h
  · split
    · exact uq_map _ (returnRows_pointwise id now) db.rows h
    · exact h

theorem uq_delete (db : LedgerState) (aId : Nat) (h : uqOk db.rows = true) :
    uqOk (deleteEndpoint db aId).2.rows = true := by
  unfold deleteEndpoint
  split
  · exact h
  · split
    · exact uq_sublist (List.filter_sublist db.rows) h
    · exact uq_sublist (List.filter_sublist db.rows) h

theorem uq_rawInsert (db : LedgerState) (aId eId assignedAt : Nat) (returned : Option Nat)
    (h : uqOk db.rows = true) : uqOk (rawInsertRow db aId eId assignedAt returned).rows = true := by
  unfold rawInsertRow
  split
  · exact h
  · split
    · exact h
    · split
      · exact h
      · rename_i hguard _
        cases returned with
        | none =>
          rw [Bool.not_eq_true, Bool.and_eq_false_iff] at hguard
          rcases hguard with hg | hg
          · simp at hg
          · exact uq_append_active db.rows ⟨db.nextId, aId, eId, assignedAt, none⟩ rfl h hg
        | some t =>
          exact uq_append_inactive db.rows ⟨db.nextId, aId, eId, assignedAt, some t⟩ rfl h

theorem uq_rawSetReturned (db : LedgerState) (id : Nat) (val : Option Nat)
    (h : uqOk db.rows = true) : uqOk (rawSetReturned db id val).rows = true := by
  cases val with
  | none =>
    unfold rawSetReturned
    split
    · exact h
    · split
      · exact h
      · rename_i hguard
        rw [Bool.not_eq_true, Bool.and_eq_false_iff] at hguard
        rcases hguard with hg | hg
        · simp at hg
        · simpa using hg
  | some t =>
    unfold rawSetReturned
    split
    · exact h
    · split
      · exact h
      · refine uq_map _ ?_ db.rows h
        intro r
        by_cases hc : (r.assignmentId == id) = true
        · right
          rw [if_pos hc]
          rfl
        · left
          rw [if_neg hc]

theorem uq_applyOp (db : LedgerState) (op : Op) (h : uqOk db.rows = true) :
    uqOk (applyOp db op).rows = true := by
  cases op with
  | assign aId eId now => rw [applyOp, assignEndpoint_state]; exact uq_sp_assign db aId eId now h
  | ret id now => rw [applyOp, returnEndpoint_state]; exact uq_sp_return db id now h
  | del aId => exact uq_delete db aId h
  | rawInsert aId eId assignedAt returned => exact uq_rawInsert db aId eId assignedAt returned h
  | rawUpdate id val => exact uq_rawSetReturned db id val h

theorem uq_applyOps (db : LedgerState) (ops : List Op) (h : uqOk db.rows = true) :
    uqOk (applyOps db ops).rows = true := by
  induction ops generalizing db with
  | nil => exact h
  | cons op rest ih => exact ih (applyOp db op) (uq_applyOp db op h)

/-! ## Preservation of `CK_ReturnedAfterAssigned` by every operation -/

theorem ck_sublist {l1 l2 : List Assignment} (h : l1.Sublist l2) (hc : ckOk l2 = true) :
    ckOk l1 = true := by
  rw [ckOk, List.all_eq_true] at *
  exact fun x hx => hc x (h.mem hx)

theorem ck_sp_assign (db : LedgerState) (aId eId now : Nat) (h : ckOk db.rows = true) :
    ckOk (sp_AssignAsset db aId eId now).2.rows = true := by
  unfold sp_AssignAsset
  split
  · exact h
  · split
    · rw [ckOk, List.all_append] at *
      simp only [h, List.all_cons, List.all_nil, Bool.and_true, Bool.true_and]
      rfl
    · exact h

theorem ck_sp_return (db : LedgerState) (id now : Nat) (h : ckOk db.rows = true) :
    ckOk (sp_ReturnAsset db id now).2.rows = true := by
  unfold sp_ReturnAsset
  split
  · exact h
  · split
    · rename_i hck _
      rw [Bool.not_eq_true, List.any_eq_false] at hck
      rw [ckOk, List.all_eq_true] at h ⊢
      intro x hx
      rw [returnRows, List.mem_map] at hx
      rcases hx with ⟨r, hr, rfl⟩
      by_cases hc : (r.assignmentId == id && activeRow r) = true
      · rw [if_pos hc]
        have hnot := hck r hr
        rw [Bool.not_eq_true, Bool.and_eq_false_iff] at hnot
        rcases hnot with hg | hg
        · rw [hc] at hg
          exact absurd hg (by simp)
        · rw [ckRow]
          simp only [decide_eq_true_eq]
          have := of_decide_eq_false hg
          omega
      · rw [if_neg hc]
        exact h r hr
    · exact h

theorem ck_delete (db : LedgerState) (aId : Nat) (h : ckOk db.rows = true) :
    ckOk (deleteEndpoint db aId).2.rows = true := by
  unfold deleteEndpoint
  split
  · exact h
  · split
    · exact ck_sublist (List.filter_sublist db.rows) h
    · exact ck_sublist (List.filter_sublist db.rows) h

theorem ck_rawInsert (db : LedgerState) (aId eId assignedAt : Nat) (returned : Option Nat)
    (h : ckOk db.rows = true) : ckOk (rawInsertRow db aId eId assignedAt returned).rows = true := by
  unfold rawInsertRow
  split
  · exact h
  · split
    · exact h
    · split
      · exact h
      · rename_i hguard
        rw [ckOk, List.all_append]
        rw [ckOk] at h
        simp only [h, List.all_cons, List.all_nil, Bool.and_true, Bool.true_and]
        cases returned with
        | none => rfl
        | some t =>
          rw [ckRow]
          simp only [decide_eq_true_eq]
          rw [Bool.not_eq_true] at hguard
          have := of_decide_eq_false hguard
          omega

theorem ck_rawSetReturned (db : LedgerState) (id : Nat) (val : Option Nat)
    (h : ckOk db.rows = true) : ckOk (rawSetReturned db id val).rows = true := by
  cases val with
  | none =>
    unfold rawSetReturned
    split
    · exact h
    · split
      · exact h
      · rw [ckOk, List.all_eq_true] at h ⊢
        intro x hx
        rw [List.mem_map] at hx
        rcases hx with ⟨r, hr, rfl⟩
        by_cases hc : (r.assignmentId == id) = true
        · rw [if_pos hc]
          rfl
        · rw [if_neg hc]
          exact h r hr
  | some t =>
    unfold rawSetReturned
    split
    · exact h
    · split
      · exact h
      · rename_i hck _
        rw [Bool.not_eq_true, List.any_eq_false] at hck
        rw [ckOk, List.all_eq_true] at h ⊢
        intro x hx
        rw [List.mem_map] at hx
        rcases hx with ⟨r, hr, rfl⟩
        by_cases hc : (r.assignmentId == id) = true
        · rw [if_pos hc]
          have hnot := hck r hr
          rw [Bool.not_eq_true, Bool.and_eq_false_iff] at hnot
          rcases hnot with hg | hg
          · rw [hc] at hg
            exact absurd hg (by simp)
          · rw [ckRow]
            simp only [decide_eq_true_eq]
            have := of_decide_eq_false hg
            omega
        · rw [if_neg hc]
          exact h r hr

theorem ck_applyOp (db : LedgerState) (op : Op) (h : ckOk db.rows = true) :
    ckOk (applyOp db op).rows = true := by
  cases op with
  | assign aId eId now => rw [applyOp, assignEndpoint_state]; exact ck_sp_assign db aId eId now h
  | ret id now => rw [applyOp, returnEndpoint_state]; exact ck_sp_return db id now h
  | del aId => exact ck_delete db aId h
  | rawInsert aId eId assignedAt returned => exact ck_rawInsert db aId eId assignedAt returned h
  | rawUpdate id val => exact ck_rawSetReturned db id val h

theorem ck_applyOps (db : LedgerState) (ops : List Op) (h : ckOk db.rows = true) :
    ckOk (applyOps db ops).rows = true := by
  induction ops generalizing db with
  | nil => exact h
  | cons op rest ih => exact ih (applyOp db op) (ck_applyOp db op h)

/-- C1: at most one active assignment per asset in every reachable state,
and a race of two simultaneous assigns of the same free asset has exactly
one winner under every interleaving. -/
theorem assign_atomic_one_active_per_asset (db : LedgerState) (h : uqOk db.rows = true) :
    (∀ ops : List Op, ∀ a : Nat, countActive (applyOps db ops).rows a ≤ 1) ∧
    (∀ a e1 e2 n1 n2 : Nat,
      db.assets.contains a = true → db.employees.contains e1 = true →
      db.employees.contains e2 = true → hasActive db a = false →
      ∀ sched ∈ interleavings, oneSuccess (runRace db a e1 e2 n1 n2 sched)) := by
  constructor
  · intro ops a
    exact countActive_le_one _ (uq_applyOps db ops h) a
  · intro a e1 e2 n1 n2 hc he1 he2 hA sched hs
    have hma : a ∈ db.assets := List.elem_iff.1 hc
    have hme1 : e1 ∈ db.employees := List.elem_iff.1 he1
    have hme2 : e2 ∈ db.employees := List.elem_iff.1 he2
    have hgrow : ∀ (e now : Nat),
        hasActive
          { db with
              rows := db.rows ++ [⟨db.nextId, a, e, now, none⟩],
              nextId := db.nextId + 1 } a = true := by
      intro e now
      simp [hasActive, List.any_append, isActiveFor, activeRow]
    fin_cases hs <;>
      simp [runRace, raceStep, oneSuccess, hA, hc, he1, he2, hma, hme1, hme2, hgrow]

theorem contains_filter_ne (l : List Nat) (a : Nat) :
    (l.filter (fun x => !(x == a))).contains a = false := by
  rw [contains_false_iff]
  intro hmem
  rw [List.mem_filter] at hmem
  simp at hmem

/-- Witness for the C1 theorem at a concrete store, operation sequence,
asset and schedule. -/
theorem assign_atomic_one_active_per_asset_witness :
    uqOk dbEmpty.rows = true ∧
    countActive (applyOps dbEmpty [Op.assign 1 1 5, Op.ret 1 9, Op.assign 1 2 12]).rows 1 ≤ 1 ∧
    oneSuccess (runRace dbEmpty 1 1 2 5 6 [true, false, true, false]) :=
  ⟨by decide,
   (assign_atomic_one_active_per_asset dbEmpty (by decide)).1
     [Op.assign 1 1 5, Op.ret 1 9, Op.assign 1 2 12] 1,
   (assign_atomic_one_active_per_asset dbEmpty (by decide)).2 1 1 2 5 6 (by decide) (by decide)
     (by decide) (by decide) [true, false, true, false] (by decide)⟩

/-- C2 (code bug): on a store where assignment 1 already holds asset 1
actively, `POST /api/assignments` for asset 1 does not fail with a distinct
AlreadyAssigned outcome: the stored procedure only prints, the handler
falls through, and the endpoint answers 201 `success: true` carrying the
pre-existing active assignment, while inserting nothing.  The second
conjunct shows the contract half that does hold: on a free asset the
endpoint inserts exactly one new active row. -/
theorem assign_already_assigned_reports_success :
    assignEndpoint dbAssigned 1 2 20 =
      (⟨201, true, some ⟨1, 1, 1, 10, none⟩⟩, dbAssigned) ∧
    (assignEndpoint dbEmpty 1 2 20).2.rows = [⟨1, 1, 2, 20, none⟩] := by
  exact ⟨by decide, by decide⟩

/-- C3 (code bug): returning assignment 1 twice.  The first call updates
the row and answers success; the second call updates nothing (the row
stays returned at 20) but still answers 200 `success: true` instead of a
distinct NotFoundOrAlreadyReturned failure, because `sp_ReturnAsset` only
prints on `@@ROWCOUNT = 0`. -/
theorem return_twice_reports_success_twice :
    returnEndpoint dbAssigned 1 20 =
      (⟨200, true, some ⟨1, 1, 1, 10, some 20⟩⟩, dbAssignedReturned) ∧
    returnEndpoint dbAssignedReturned 1 30 =
      (⟨200, true, some ⟨1, 1, 1, 10, some 20⟩⟩, dbAssignedReturned) := by
  exact ⟨by decide, by decide⟩

/-- C5 (code bug): with serials 999 and 1000 of the same prefix and year
persisted, the scan orders by the integer value of the *last three
characters*, so it selects `LA-2025-999` (key 999 beats key 0 of
`...1000`), proposes the already-taken `LA-2025-1000`, and never proposes
`LA-2025-1001` as a numeric comparison of the whole suffix would. -/
theorem serial_scan_uses_last_three_chars :
    candidateSerial ["LA-2025-999", "LA-2025-1000"] "Laptop" 2025 = "LA-2025-1000" ∧
    "LA-2025-1000" ∈ ["LA-2025-999", "LA-2025-1000"] ∧
    candidateSerial ["LA-2025-999", "LA-2025-1000"] "Laptop" 2025 ≠ "LA-2025-1001" := by
  exact ⟨by decide, by decide, by decide⟩

/-- C7: every operation sequence preserves `CK_ReturnedAfterAssigned`: in
any state reachable from one satisfying the constraint, every assignment
row is unreturned or returned no earlier than it was assigned. -/
theorem returned_at_ge_assigned_at_invariant (db : LedgerState) (ops : List Op)
    (h : ckOk db.rows = true) :
    ckOk (applyOps db ops).rows = true ∧
    ∀ r ∈ (applyOps db ops).rows,
      r.returnedAt = none ∨ ∃ t, r.returnedAt = some t ∧ r.assignedAt ≤ t := by
  refine ⟨ck_applyOps db ops h, ?_⟩
  have hc := ck_applyOps db ops h
  rw [ckOk, List.all_eq_true] at hc
  intro r hr
  have hck := hc r hr
  rw [ckRow] at hck
  cases hret : r.returnedAt with
  | none => exact Or.inl rfl
  | some t =>
    right
    refine ⟨t, rfl, ?_⟩
    rw [hret] at hck
    simpa using hck

/-- Witness for the C7 theorem: a sequence that assigns, returns, and then
attempts two raw writes that would violate the constraint (both rejected by
the store). -/
theorem returned_at_ge_assigned_at_invariant_witness :
    ckOk dbEmpty.rows = true ∧
    ckOk (applyOps dbEmpty
      [Op.assign 1 1 5, Op.ret 1 9, Op.rawUpdate 1 (some 3), Op.rawInsert 1 2 7 (some 2)]).rows
      = true :=
  ⟨by decide,
   (returned_at_ge_assigned_at_invariant dbEmpty
     [Op.assign 1 1 5, Op.ret 1 9, Op.rawUpdate 1 (some 3), Op.rawInsert 1 2 7 (some 2)]
     (by decide)).1⟩

/-- C8: `DELETE /api/assets/:assetId` fails with the asset-in-use outcome
and changes nothing when the asset has an active assignment; otherwise the
resulting state holds no assignment row for the asset and no asset row with
that id. -/
theorem delete_asset_contract (db : LedgerState) (aId : Nat) :
    (hasActive db aId = true → deleteEndpoint db aId = (DeleteOutcome.assetInUse, db)) ∧
    (hasActive db aId = false →
      (∀ r ∈ (deleteEndpoint db aId).2.rows, ¬ r.assetId = aId) ∧
      (deleteEndpoint db aId).2.assets.contains aId = false) := by
  constructor
  · intro h
    unfold deleteEndpoint
    rw [if_pos h]
  · intro h
    unfold deleteEndpoint
    split
    · rename_i hcond
      rw [h] at hcond
      exact absurd hcond (by simp)
    · split
      · constructor
        · intro r hr
          simp only [List.mem_filter] at hr
          simpa using hr.2
        · simp only []
          exact contains_filter_ne db.assets aId
      · constructor
        · intro r hr
          simp only [List.mem_filter] at hr
          simpa using hr.2
        · rename_i hnf
          have hfalse : db.assets.contains aId = false := by
            cases hb : db.assets.contains aId
            · rfl
            · exact absurd hb hnf
          simpa using hfalse

/-- Witness for the C8 theorem: both branches at concrete stores. -/
theorem delete_asset_contract_witness :
    deleteEndpoint dbAssigned 1 = (DeleteOutcome.assetInUse, dbAssigned) ∧
    (deleteEndpoint dbReturned 1).2.assets.contains 1 = false :=
  ⟨(delete_asset_contract dbAssigned 1).1 (by decide),
   ((delete_asset_contract dbReturned 1).2 (by decide)).2⟩

/-- C4 (code bug): on a store holding `PH-2025-999` and `PH-2025-1000`, the
collision retry of `generateSerialNumber` re-runs the identical computation
(candidate `PH-2025-1000`, again a collision) and therefore exceeds every
finite recursion depth: the fueled model returns nothing for every budget,
so the source recursion neither terminates nor surfaces any
SerialAllocationFailed error. -/
theorem serial_retry_recursion_unbounded (fuel : Nat) :
    generateSerialNumber ["PH-2025-999", "PH-2025-1000"] "Phone" 2025 fuel = none := by
  induction fuel with
  | zero => rfl
  | succ n ih =>
    rw [generateSerialNumber]
    rw [show ["PH-2025-999", "PH-2025-1000"].contains
        (candidateSerial ["PH-2025-999", "PH-2025-1000"] "Phone" 2025) = true by decide]
    simpa using ih

/-- C6: the serial has the shape code-year-paddedNumber, starting at 001 on
a store with no matching serial for any asset type and any year, and the
four concrete examples of the specification hold, including the second call
after the first serial is persisted. -/
theorem serial_format_and_examples :
    (∀ (t : String) (y : Nat),
      generateSerialNumber [] t y 1 = some (basePattern t y ++ "001")) ∧
    generateSerialNumber [] "Laptop" 2025 1 = some "LA-2025-001" ∧
    generateSerialNumber ["LA-2025-001"] "Laptop" 2025 1 = some "LA-2025-002" ∧
    generateSerialNumber [] "IO" 2025 1 = some "IO-2025-001" ∧
    generateSerialNumber [] "A" 2025 1 = some "AX-2025-001" := by
  refine ⟨?_, by decide, by decide, by decide, by decide⟩
  intro t y
  have h1 : nextNumber [] (basePattern t y) = 1 := rfl
  have hn : padStartThree (nextNumber [] (basePattern t y)) = "001" := by
    rw [h1]
    decide
  rw [generateSerialNumber]
  simp [candidateSerial, hn]

/-- C9 (code bug): the duplicate-key error raised by the store when a
racing insert hits `UQ_OneAssetOneEmployee` does not contain the substring
`already assigned` that the assign catch handler tests, so the handler
answers 400 with the raw storage message instead of the distinct 409
conflict; the return catch handler always forwards the raw message. -/
theorem race_constraint_violation_leaks_raw_error :
    assignCatch duplicateKeyMessage = (400, duplicateKeyMessage) ∧
    assignCatch duplicateKeyMessage ≠ (409, "Asset is already assigned") ∧
    ∀ msg : String, returnCatch msg = (400, msg) := by
  refine ⟨by decide, by decide, fun msg => rfl⟩

theorem toNat_ofNat_valid (n : Nat) (h : n < 55296) : (Char.ofNat n).toNat = n := by
  have hv : n.isValidChar := Or.inl h
  simp [Char.ofNat, hv, Char.ofNatAux, Char.toNat, UInt32.toNat, BitVec.toNat_ofNatLt]

theorem upperAscii_upper (c : Char) (h : isAsciiLetter c = true) :
    65 ≤ (upperAscii c).toNat ∧ (upperAscii c).toNat ≤ 90 := by
  simp only [isAsciiLetter, Bool.or_eq_true, Bool.and_eq_true, decide_eq_true_eq] at h
  unfold upperAscii
  split
  · rename_i hl
    simp only [Bool.and_eq_true, decide_eq_true_eq] at hl
    rw [toNat_ofNat_valid _ (by omega)]
    omega
  · rename_i hl
    simp only [Bool.and_eq_true, decide_eq_true_eq, not_and, not_le] at hl
    rcases h with h | h
    · exact h
    · omega

theorem length_mk (l : List Char) : (String.mk l).length = l.length := rfl

/-- C10: for every asset type (empty or not), the computed code is exactly
two characters, each an uppercase ASCII letter, and the filler is the
letter X: a type with no letters at all still yields the code XX. -/
theorem type_code_two_upper_letters (s : String) (h : s ≠ "") :
    (typeCode s).length = 2 ∧
    (∀ c ∈ (typeCode s).data, 65 ≤ c.toNat ∧ c.toNat ≤ 90) ∧
    typeCode "123" = "XX" := by
  refine ⟨?_, ?_, by decide⟩
  · rw [typeCode, length_mk, padEndX, List.length_append, List.length_replicate,
      List.length_map, List.length_take]
    omega
  · intro c hc
    rw [typeCode] at hc
    simp only [String.data] at hc
    rw [padEndX, List.mem_append] at hc
    rcases hc with hc | hc
    · rw [List.mem_map] at hc
      rcases hc with ⟨d, hd, rfl⟩
      have hdl : d ∈ s.data.filter isAsciiLetter := List.mem_of_mem_take hd
      rw [List.mem_filter] at hdl
      exact upperAscii_upper d hdl.2
    · rw [List.eq_of_mem_replicate hc]
      exact ⟨by decide, by decide⟩

/-- Witness for the C10 theorem at the letterless type of the claim. -/
theorem type_code_two_upper_letters_witness :
    typeCode "123" = "XX" ∧ (typeCode "123").length = 2 :=
  ⟨(type_code_two_upper_letters "123" (by decide)).2.2,
   (type_code_two_upper_letters "123" (by decide)).1⟩
